import Mathlib

/-!
Shallow embedding of the machine-monitoring system
(`src/simulator.py`, `src/processor.py`, `src/utils.py`, `src/config.py`)
and proofs about the claims of its design specification.

Conventions of the embedding:
* timestamps are integers (`ℤ`) with the usual order (ISO timestamps are
  totally ordered; only their order is used by the code);
* floating point numbers are modelled as rationals (`ℚ`);
* Python `round(x, 2)` (round half to even) is `round2`;
* `random.random()` draws are explicit rational arguments in `[0,1)`,
  `random.choice` draws are explicit index arguments;
* a line of the JSONL stream file is `Option Reading`: `none` stands for a
  line on which `json.loads` / `fromisoformat` raises;
* `NaN` results (empty-window moving average) are `Option.none`;
* Python's iteration order over `set(...)` is an explicit `order` list
  argument (CPython string-hash order is unspecified).
-/

namespace Machine

/-- The status alphabet of `PARAMETERS['status']['possible_values']` in
`src/config.py`. -/
inductive Status where
  | STARTED
  | RUNNING
  | PAUSED
  | COMPLETED
  | SHUTDOWN
deriving DecidableEq, Repr

open Status

/-- `PARAMETERS['status']['transitions']` from `src/config.py`. -/
def transitions : Status → List Status
  | STARTED => [RUNNING, SHUTDOWN]
  | RUNNING => [PAUSED, COMPLETED, SHUTDOWN]
  | PAUSED => [RUNNING, SHUTDOWN]
  | COMPLETED => [STARTED, SHUTDOWN]
  | SHUTDOWN => [STARTED]

/-- `MachineSimulator.get_next_status` from `src/simulator.py`.
`u` is the value of `random.random()` and `idx` the index drawn by
`random.choice` (taken modulo the list length, as `random.choice` picks
uniformly among the valid indices). -/
def get_next_status (current : Status) (u : ℚ) (idx : Nat) : Status :=
  let valid_transitions := transitions current
  match current with
  | SHUTDOWN => STARTED
  | STARTED => if u < 9/10 then RUNNING else SHUTDOWN
  | RUNNING =>
      if u < 1/10 then
        let possible_next := valid_transitions.filter (· ≠ RUNNING)
        possible_next.getD (idx % possible_next.length) RUNNING
      else RUNNING
  | PAUSED => if u < 8/10 then RUNNING else SHUTDOWN
  | COMPLETED => if u < 7/10 then STARTED else SHUTDOWN

/-- A consecutive pair of statuses is legal when it is the `RUNNING`
self-loop or an edge of the transition table. -/
def legalStep (prev next : Status) : Prop :=
  (prev = RUNNING ∧ next = RUNNING) ∨ next ∈ transitions prev

instance (prev next : Status) : Decidable (legalStep prev next) := by
  unfold legalStep; infer_instance

/-- The sequence of statuses obtained by iterating `get_next_status` from a
start status, one draw `(u, idx)` per step (the simulator's status
trajectory). -/
def statusTrajectory : Status → List (ℚ × Nat) → List Status
  | s, [] => [s]
  | s, d :: ds => s :: statusTrajectory (get_next_status s d.1 d.2) ds

lemma get_next_status_legal (s : Status) (u : ℚ) (idx : Nat) :
    legalStep s (get_next_status s u idx) := by
  cases s with
  | SHUTDOWN => simp [legalStep, get_next_status, transitions]
  | STARTED =>
      by_cases h : u < 9/10 <;>
        simp [legalStep, get_next_status, transitions, h]
  | RUNNING =>
      have key : ∀ j : ℕ,
          legalStep RUNNING ([PAUSED, COMPLETED, SHUTDOWN].getD (j % 3) RUNNING) := by
        intro j
        have h3 : j % 3 = 0 ∨ j % 3 = 1 ∨ j % 3 = 2 := by omega
        rcases h3 with h3 | h3 | h3 <;> rw [h3] <;> decide
      have hfil : (transitions RUNNING).filter (· ≠ RUNNING)
          = [PAUSED, COMPLETED, SHUTDOWN] := rfl
      simp only [get_next_status, hfil]
      by_cases h : u < 1/10
      · rw [if_pos h]; exact key idx
      · rw [if_neg h]; left; exact ⟨rfl, rfl⟩
  | PAUSED =>
      by_cases h : u < 8/10 <;>
        simp [legalStep, get_next_status, transitions, h]
  | COMPLETED =>
      by_cases h : u < 7/10 <;>
        simp [legalStep, get_next_status, transitions, h]

lemma statusTrajectory_chain (s : Status) (ds : List (ℚ × Nat)) :
    List.Chain' legalStep (statusTrajectory s ds) := by
  induction ds generalizing s with
  | nil => simp [statusTrajectory]
  | cons d ds ih =>
      have htail := ih (get_next_status s d.1 d.2)
      cases hds : ds with
      | nil =>
          simpa [statusTrajectory, hds] using get_next_status_legal s d.1 d.2
      | cons e es =>
          refine List.Chain'.cons ?_ ?_
          · exact get_next_status_legal s d.1 d.2
          · simpa [hds] using htail

/-- **C4.** Every status trajectory generated from `SHUTDOWN` takes only
legal steps: each consecutive pair is the `RUNNING` self-loop or an edge of
the transition table, and from `SHUTDOWN` the next status is `STARTED`
whatever the random draw. -/
theorem c4_status_transitions_legal :
    (∀ ds : List (ℚ × Nat),
        List.Chain' legalStep (statusTrajectory SHUTDOWN ds)) ∧
    (∀ (u : ℚ) (idx : Nat), get_next_status SHUTDOWN u idx = STARTED) := by
  constructor
  · intro ds; exact statusTrajectory_chain SHUTDOWN ds
  · intro u idx; rfl

/-- Python's `round` to the nearest integer, halves to even (banker's
rounding), on the idealized rational value. -/
def pyRound (x : ℚ) : ℤ :=
  if x - ⌊x⌋ < 1/2 then ⌊x⌋
  else if 1/2 < x - ⌊x⌋ then ⌊x⌋ + 1
  else if 2 ∣ ⌊x⌋ then ⌊x⌋ else ⌊x⌋ + 1

/-- Python's `round(x, 2)`. -/
def round2 (x : ℚ) : ℚ := (pyRound (x * 100) : ℚ) / 100

/-- `random.uniform(a, b)` with the standard draw `u ∈ [0,1]` made
explicit: returns `a + u * (b - a)`. -/
def uniform (a b u : ℚ) : ℚ := a + u * (b - a)

/-- A telemetry reading as produced by the simulator
(`MachineSimulator.generate_reading`): timestamp, temperature, speed,
status. -/
structure SimReading where
  timestamp : ℤ
  temperature : ℚ
  speed : ℚ
  status : Status
deriving DecidableEq, Repr

/-- `MachineSimulator.generate_reading` from `src/simulator.py`. `current`
is `self.current_status`; `u`, `idx` are the status-transition draws; `now`
is `datetime.now()`; `tu`, `su` are the uniform draws for temperature and
speed. -/
def generate_reading (current : Status) (u : ℚ) (idx : Nat)
    (now : ℤ) (tu su : ℚ) : SimReading :=
  let new_status := get_next_status current u idx
  -- if/elif chain of the source: SHUTDOWN / PAUSED / RUNNING or STARTED /
  -- else COMPLETED
  let tempSpeed : ℚ × ℚ :=
    match new_status with
    | SHUTDOWN => (uniform 15 20 tu, 0)
    | PAUSED => (uniform 20 25 tu, uniform 800 1000 su)
    | RUNNING => (uniform 25 35 tu, uniform 1000 2000 su)
    | STARTED => (uniform 25 35 tu, uniform 1000 2000 su)
    | COMPLETED => (uniform 20 30 tu, uniform 800 1200 su)
  { timestamp := now
    temperature := round2 tempSpeed.1
    speed := round2 tempSpeed.2
    status := new_status }

lemma floor_le_pyRound (x : ℚ) : ⌊x⌋ ≤ pyRound x := by
  unfold pyRound
  split_ifs <;> omega

lemma pyRound_le_ceil (x : ℚ) : pyRound x ≤ ⌊x⌋ + 1 := by
  unfold pyRound
  split_ifs <;> omega

lemma le_round2 (n : ℤ) (x : ℚ) (h : (n : ℚ) ≤ x) : (n : ℚ) ≤ round2 x := by
  unfold round2
  have h1 : (n * 100 : ℤ) ≤ ⌊x * 100⌋ := by
    have : ((n * 100 : ℤ) : ℚ) ≤ x * 100 := by push_cast; nlinarith
    exact Int.le_floor.mpr this
  have h2 : (n * 100 : ℤ) ≤ pyRound (x * 100) :=
    le_trans h1 (floor_le_pyRound _)
  have : ((n * 100 : ℤ) : ℚ) ≤ (pyRound (x * 100) : ℚ) := by exact_mod_cast h2
  push_cast at this
  linarith

lemma round2_le (n : ℤ) (x : ℚ) (h : x ≤ (n : ℚ)) : round2 x ≤ (n : ℚ) := by
  unfold round2
  have hx : x * 100 ≤ ((n * 100 : ℤ) : ℚ) := by push_cast; nlinarith
  have h0 : ⌊x * 100⌋ ≤ n * 100 := by
    calc ⌊x * 100⌋ ≤ ⌊((n * 100 : ℤ) : ℚ)⌋ := Int.floor_le_floor hx
    _ = n * 100 := Int.floor_intCast _
  have h1 : pyRound (x * 100) ≤ n * 100 := by
    rcases eq_or_lt_of_le h0 with he | hl
    · -- the floor already equals the bound, so the fractional part is ≤ 0
      have hfr : x * 100 - (⌊x * 100⌋ : ℚ) < 1/2 := by
        rw [he]
        push_cast
        push_cast at hx
        linarith
      unfold pyRound
      rw [if_pos hfr]
      exact h0
    · exact le_trans (pyRound_le_ceil _) (by omega)
  have h2 : (pyRound (x * 100) : ℚ) ≤ ((n * 100 : ℤ) : ℚ) := by exact_mod_cast h1
  push_cast at h2
  linarith

lemma uniform_lower (a b u : ℚ) (h0 : 0 ≤ u) (hab : a ≤ b) :
    a ≤ uniform a b u := by
  unfold uniform
  nlinarith

/-- **C9.** For every reading produced by the generator (with any status
draw and uniform draws in `[0,1]`), `speed = 0` iff `status = SHUTDOWN`,
and every non-`SHUTDOWN` reading has speed at least 800. -/
theorem c9_speed_zero_iff_shutdown (current : Status) (u : ℚ) (idx : Nat)
    (now : ℤ) (tu su : ℚ) (h0 : 0 ≤ su) (h1 : su ≤ 1) :
    ((generate_reading current u idx now tu su).speed = 0 ↔
      (generate_reading current u idx now tu su).status = SHUTDOWN) ∧
    ((generate_reading current u idx now tu su).status ≠ SHUTDOWN →
      800 ≤ (generate_reading current u idx now tu su).speed) := by
  have h800 : ∀ a b : ℚ, (800 : ℚ) ≤ a → a ≤ b →
      (800 : ℚ) ≤ round2 (uniform a b su) := by
    intro a b ha hab
    have hu := uniform_lower a b su h0 hab
    have hge : ((800 : ℤ) : ℚ) ≤ uniform a b su := by
      push_cast
      linarith
    have := le_round2 800 _ hge
    push_cast at this
    linarith
  unfold generate_reading
  cases hns : get_next_status current u idx with
  | SHUTDOWN =>
      constructor
      · constructor
        · intro _; rfl
        · intro _
          show round2 0 = 0
          unfold round2 pyRound
          norm_num
      · intro hc; exact absurd rfl hc
  | PAUSED =>
      have hs : (800 : ℚ) ≤ round2 (uniform 800 1000 su) :=
        h800 800 1000 le_rfl (by norm_num)
      constructor
      · constructor
        · intro hzero
          exfalso
          have hz : round2 (uniform 800 1000 su) = 0 := hzero
          rw [hz] at hs
          norm_num at hs
        · intro hcon; exact Status.noConfusion hcon
      · intro _; exact hs
  | RUNNING =>
      have hs : (800 : ℚ) ≤ round2 (uniform 1000 2000 su) := by
        have h1000 := uniform_lower 1000 2000 su h0 (by norm_num)
        have hge : ((1000 : ℤ) : ℚ) ≤ uniform 1000 2000 su := by
          push_cast
          linarith
        have := le_round2 1000 _ hge
        push_cast at this
        linarith
      constructor
      · constructor
        · intro hzero
          exfalso
          have hz : round2 (uniform 1000 2000 su) = 0 := hzero
          rw [hz] at hs
          norm_num at hs
        · intro hcon; exact Status.noConfusion hcon
      · intro _; exact hs
  | STARTED =>
      have hs : (800 : ℚ) ≤ round2 (uniform 1000 2000 su) := by
        have h1000 := uniform_lower 1000 2000 su h0 (by norm_num)
        have hge : ((1000 : ℤ) : ℚ) ≤ uniform 1000 2000 su := by
          push_cast
          linarith
        have := le_round2 1000 _ hge
        push_cast at this
        linarith
      constructor
      · constructor
        · intro hzero
          exfalso
          have hz : round2 (uniform 1000 2000 su) = 0 := hzero
          rw [hz] at hs
          norm_num at hs
        · intro hcon; exact Status.noConfusion hcon
      · intro _; exact hs
  | COMPLETED =>
      have hs : (800 : ℚ) ≤ round2 (uniform 800 1200 su) :=
        h800 800 1200 le_rfl (by norm_num)
      constructor
      · constructor
        · intro hzero
          exfalso
          have hz : round2 (uniform 800 1200 su) = 0 := hzero
          rw [hz] at hs
          norm_num at hs
        · intro hcon; exact Status.noConfusion hcon
      · intro _; exact hs

/-- Witness for C9 at a concrete input: current status `RUNNING`, draws
that keep it running, speed draw `1/2`. -/
theorem c9_speed_zero_iff_shutdown_witness :
    (0 : ℚ) ≤ 1/2 ∧ (1/2 : ℚ) ≤ 1 ∧
    (((generate_reading RUNNING (1/2) 0 0 (1/2) (1/2)).speed = 0 ↔
      (generate_reading RUNNING (1/2) 0 0 (1/2) (1/2)).status = SHUTDOWN) ∧
    ((generate_reading RUNNING (1/2) 0 0 (1/2) (1/2)).status ≠ SHUTDOWN →
      800 ≤ (generate_reading RUNNING (1/2) 0 0 (1/2) (1/2)).speed)) :=
  ⟨by norm_num, by norm_num,
    c9_speed_zero_iff_shutdown RUNNING (1/2) 0 0 (1/2) (1/2) (by norm_num) (by norm_num)⟩

/-! ### Processor (`src/processor.py`, `src/utils.py`) -/

/-- A parsed line of the telemetry log as seen by `DataProcessor`. The
status travels as the raw JSON string. -/
structure Reading where
  timestamp : ℤ
  temperature : ℚ
  speed : ℚ
  status : String
deriving DecidableEq, Repr

instance : Inhabited Reading := ⟨⟨0, 0, 0, ""⟩⟩

/-- The filter of `DataProcessor.process_new_readings`: a record is kept
iff `not (self.last_processed and timestamp <= self.last_processed)`. -/
def acceptNew : Option ℤ → ℤ → Bool
  | none, _ => true
  | some c, t => decide (c < t)

/-- `DataProcessor.process_new_readings`. The file is a list of lines,
`none` standing for a line on which parsing raises; the `try` block wraps
the whole loop, so the first unparseable line ends the scan. Returns the
accepted readings and the final in-memory `self.last_processed`. -/
def process_new_readings : Option ℤ → List (Option Reading) → List Reading × Option ℤ
  | cursor, [] => ([], cursor)
  | cursor, none :: _ => ([], cursor)
  | cursor, some r :: rest =>
      if acceptNew cursor r.timestamp then
        let res := process_new_readings (some r.timestamp) rest
        (r :: res.1, res.2)
      else
        process_new_readings cursor rest

/-- The three metric buffers of `DataProcessor`. -/
structure Buffers where
  temp_buffer : List ℚ
  speed_buffer : List ℚ
  status_buffer : List String
deriving DecidableEq, Repr

def emptyBuffers : Buffers := ⟨[], [], []⟩

/-- Python's `l[-w:]` (for `w = 0` it is `l[0:]`, the whole list). -/
def pySliceLast {α : Type} (w : Nat) (l : List α) : List α :=
  if w = 0 then l else l.drop (l.length - w)

/-- One iteration of the loop in `DataProcessor.update_buffers`: append
the reading's values to all three buffers, then keep the last
`window_size` elements of each. -/
def pushReading (w : Nat) (b : Buffers) (r : Reading) : Buffers :=
  { temp_buffer := pySliceLast w (b.temp_buffer ++ [r.temperature])
    speed_buffer := pySliceLast w (b.speed_buffer ++ [r.speed])
    status_buffer := pySliceLast w (b.status_buffer ++ [r.status]) }

/-- `DataProcessor.update_buffers`. -/
def update_buffers (w : Nat) (b : Buffers) (readings : List Reading) : Buffers :=
  readings.foldl (pushReading w) b

/-- The `status_scores` dictionary of
`DataProcessor.calculate_health_score`. -/
def status_scores : List (String × ℚ) :=
  [("STARTED", 8/10), ("RUNNING", 1), ("PAUSED", 6/10),
   ("COMPLETED", 9/10), ("SHUTDOWN", 5/10)]

/-- `DataProcessor.calculate_health_score`. -/
def calculate_health_score (temperature speed : ℚ) (status : String) : ℚ :=
  let temp_score := max 0 (1 - |temperature - 25| / 15)
  let speed_score := max 0 (1 - |speed - 1500| / 700)
  let status_score := (status_scores.lookup status).getD (5/10)
  round2 ((temp_score + speed_score + status_score) / 3)

/-- Result of `calculate_moving_stats` (`moving_avg := none` is the `NaN`
of the empty-input branch). -/
structure MovingStats where
  moving_avg : Option ℚ
  trend : String
deriving DecidableEq, Repr

/-- `calculate_moving_stats` from `src/utils.py`: edge-pad the values on
the left with `window_size - 1` copies of the first value, take the mean of
the last `window_size` padded entries (the last element of the `valid`
convolution with the averaging kernel), and classify the trend from the two
most recent raw values. -/
def calculate_moving_stats (values : List ℚ) (window_size : Nat) : MovingStats :=
  match values with
  | [] => { moving_avg := none, trend := "insufficient_data" }
  | v :: _ =>
      let padded := List.replicate (window_size - 1) v ++ values
      let lastW := padded.drop (padded.length - window_size)
      let avg := lastW.sum / (window_size : ℚ)
      let trend :=
        if 2 ≤ values.length then
          let slope := values.getLastD 0 - values.dropLast.getLastD 0
          if |slope| < 1/10 then "stable"
          else if 0 < slope then "increasing"
          else "decreasing"
        else "stable"
      { moving_avg := some avg, trend := trend }

/-- One step of Python's `max(iterable, key=key)`: keep the current best,
replace it only when the new element's key is strictly greater. -/
def pyMaxStep (key : String → Nat) (acc : Option String) (x : String) : Option String :=
  match acc with
  | none => some x
  | some b => if key b < key x then some x else some b

/-- Python's `max(iterable, key=key)`: the first element of the iterable
attaining the maximal key (`none` on an empty iterable, where Python
raises). -/
def pyMaxBy (key : String → Nat) (l : List String) : Option String :=
  l.foldl (pyMaxStep key) none

/-- `max(set(self.status_buffer), key=self.status_buffer.count)` from
`DataProcessor.process_and_analyze`. `order` is the iteration order of the
Python `set` — some duplicate-free enumeration of the distinct statuses,
not specified by the language. -/
def status_mode (order : List String) (buf : List String) : Option String :=
  pyMaxBy (fun s => buf.count s) order

/-- `DataProcessor.generate_alerts`. -/
def generate_alerts (temperature speed : ℚ) (status : String) : List String :=
  (if ¬(10 ≤ temperature ∧ temperature ≤ 40) then
      ["Temperature out of safe range: " ++ toString temperature] else []) ++
  (if ¬(800 ≤ speed ∧ speed ≤ 2200) then
      ["Speed out of safe range: " ++ toString speed] else []) ++
  (if status = "PAUSED" then ["Machine paused - may require attention"]
   else if status = "SHUTDOWN" then ["Machine shutdown - check if scheduled"]
   else [])

/-- The analysis record assembled by `DataProcessor.process_and_analyze`
(fields flattened as in `flatten_analysis_for_csv`). -/
structure Analysis where
  timestamp : ℤ
  temperature_current : ℚ
  temperature_moving_avg : Option ℚ
  temperature_is_outlier : Bool
  temperature_trend : String
  speed_current : ℚ
  speed_moving_avg : Option ℚ
  speed_is_outlier : Bool
  speed_trend : String
  status_current : String
  status_mode : Option String
  status_changes : Nat
  health_score : ℚ
  alerts : List String
deriving DecidableEq, Repr

/-- The analysis dictionary built by `DataProcessor.process_and_analyze`
from the current buffers and the current (last new) reading. `modeFn` is
the status-mode computation, abstracted over the unspecified `set`
iteration order. -/
def mkAnalysis (modeFn : List String → Option String) (w : Nat)
    (b : Buffers) (current : Reading) : Analysis :=
  let temp_stats := calculate_moving_stats b.temp_buffer w
  let speed_stats := calculate_moving_stats b.speed_buffer w
  { timestamp := current.timestamp
    temperature_current := current.temperature
    temperature_moving_avg := temp_stats.moving_avg
    temperature_is_outlier :=
      !(decide (15 ≤ current.temperature ∧ current.temperature ≤ 35))
    temperature_trend := temp_stats.trend
    speed_current := current.speed
    speed_moving_avg := speed_stats.moving_avg
    speed_is_outlier :=
      !(decide (1000 ≤ current.speed ∧ current.speed ≤ 2000))
    speed_trend := speed_stats.trend
    status_current := current.status
    status_mode := modeFn b.status_buffer
    status_changes := b.status_buffer.dedup.length
    health_score := calculate_health_score current.temperature current.speed current.status
    alerts := generate_alerts current.temperature current.speed current.status }

/-- The in-memory state of a `DataProcessor`: `self.last_processed` and
the three buffers. -/
structure ProcState where
  last_processed : Option ℤ
  buffers : Buffers
deriving DecidableEq, Repr

/-- `DataProcessor.process_and_analyze` over the current contents of the
input file: scan for new readings, return `none` if there are none,
otherwise push them all into the buffers and build the analysis for the
last one. -/
def process_and_analyze (modeFn : List String → Option String) (w : Nat)
    (st : ProcState) (lines : List (Option Reading)) : ProcState × Option Analysis :=
  let res := process_new_readings st.last_processed lines
  if res.1.isEmpty then
    ({ st with last_processed := res.2 }, none)
  else
    let b := update_buffers w st.buffers res.1
    (⟨res.2, b⟩, some (mkAnalysis modeFn w b (res.1.getLastD default)))

/-- `DataProcessor.save_to_csv`: the rows of the analysis CSV after the
call. `writeOk` tells whether the underlying file write succeeds; on
failure the exception is caught inside `save_to_csv` and the rows are
unchanged. -/
def save_to_csv (writeOk : Bool) (rows : List Analysis) (a : Analysis) : List Analysis :=
  if writeOk then rows ++ [a] else rows

/-- The on-disk and in-memory state handled by one iteration of
`DataProcessor.run`. -/
structure SysState where
  proc : ProcState
  csv_rows : List Analysis
  cursor_file : Option ℤ
deriving DecidableEq, Repr

/-- One iteration of the loop in `DataProcessor.run`: process and analyze;
when an analysis is produced, `save_to_csv` it (errors caught inside) and
then `save_last_processed` the analysis timestamp. -/
def run_cycle (modeFn : List String → Option String) (w : Nat)
    (writeOk : Bool) (sys : SysState) (lines : List (Option Reading)) : SysState :=
  let res := process_and_analyze modeFn w sys.proc lines
  match res.2 with
  | none => { sys with proc := res.1 }
  | some a =>
      { proc := res.1
        csv_rows := save_to_csv writeOk sys.csv_rows a
        cursor_file := some a.timestamp }

/-- The successive contents of the append-only log file when the readings
of `rest` are appended one per generator tick after `acc`: the analyzer's
poll `i` sees the first `acc.length + i` readings. -/
def snapshotsFrom (acc : List Reading) : List Reading → List (List (Option Reading))
  | [] => []
  | r :: rs => ((acc ++ [r]).map some) :: snapshotsFrom (acc ++ [r]) rs

/-- Run one `process_and_analyze` poll per file snapshot, collecting the
emitted analysis records and threading the processor state. -/
def pollManySt (modeFn : List String → Option String) (w : Nat) :
    ProcState → List (List (Option Reading)) → ProcState × List Analysis
  | st, [] => (st, [])
  | st, f :: fs =>
      let res := process_and_analyze modeFn w st f
      let rest := pollManySt modeFn w res.1 fs
      (rest.1, res.2.toList ++ rest.2)

/-- The analyzer polling once per appended reading over a growing log,
from initial state `st`. -/
def runAnalyzer (modeFn : List String → Option String) (w : Nat)
    (st : ProcState) (log : List Reading) : List Analysis :=
  (pollManySt modeFn w st (snapshotsFrom [] log)).2

/-- Reference run: process each reading in its own poll, pushing it into
the buffers and emitting its analysis (no cursor filtering). -/
def simpleRun (modeFn : List String → Option String) (w : Nat)
    (b : Buffers) : List Reading → List Analysis
  | [] => []
  | r :: rs =>
      let b1 := pushReading w b r
      mkAnalysis modeFn w b1 r :: simpleRun modeFn w b1 rs

/-- Order on optional cursors: no cursor yet (`none`) is below
everything. -/
def cursorLe : Option ℤ → Option ℤ → Prop
  | none, _ => True
  | some _, none => False
  | some a, some b => a ≤ b

instance (a b : Option ℤ) : Decidable (cursorLe a b) := by
  unfold cursorLe
  rcases a with - | a <;> rcases b with - | b <;> infer_instance

/-- A concrete choice of the unspecified `set` iteration order:
first-encountered order of the distinct statuses in the window. -/
def dedupMode (buf : List String) : Option String := status_mode buf.dedup buf

/-- The components of an analysis record that depend only on the current
reading, not on the window buffers: timestamp, current values, outlier
flags, current status, health score and alerts. -/
def currentPart (a : Analysis) : ℤ × ℚ × Bool × ℚ × Bool × String × ℚ × List String :=
  (a.timestamp, a.temperature_current, a.temperature_is_outlier,
   a.speed_current, a.speed_is_outlier, a.status_current,
   a.health_score, a.alerts)
/-! ### C6: health score -/

lemma lookup_default_of_unknown (st : String)
    (h1 : st ≠ "STARTED") (h2 : st ≠ "RUNNING") (h3 : st ≠ "PAUSED")
    (h4 : st ≠ "COMPLETED") (h5 : st ≠ "SHUTDOWN") :
    status_scores.lookup st = none := by
  have b1 : (st == "STARTED") = false := beq_eq_false_iff_ne.mpr h1
  have b2 : (st == "RUNNING") = false := beq_eq_false_iff_ne.mpr h2
  have b3 : (st == "PAUSED") = false := beq_eq_false_iff_ne.mpr h3
  have b4 : (st == "COMPLETED") = false := beq_eq_false_iff_ne.mpr h4
  have b5 : (st == "SHUTDOWN") = false := beq_eq_false_iff_ne.mpr h5
  simp only [status_scores, List.lookup, b1, b2, b3, b4, b5]

lemma dev_score_bounds (x c d : ℚ) (hd : 0 < d) :
    0 ≤ max 0 (1 - |x - c| / d) ∧ max 0 (1 - |x - c| / d) ≤ 1 := by
  constructor
  · exact le_max_left 0 _
  · apply max_le (by norm_num)
    have h : 0 ≤ |x - c| / d := by positivity
    linarith

lemma status_score_bounds (st : String) :
    1/2 ≤ ((status_scores.lookup st).getD (5/10) : ℚ) ∧
    ((status_scores.lookup st).getD (5/10) : ℚ) ≤ 1 := by
  by_cases h1 : st = "STARTED"
  · subst h1
    rw [show status_scores.lookup "STARTED" = some (8/10) from rfl]
    constructor <;> norm_num
  by_cases h2 : st = "RUNNING"
  · subst h2
    rw [show status_scores.lookup "RUNNING" = some 1 from rfl]
    constructor <;> norm_num
  by_cases h3 : st = "PAUSED"
  · subst h3
    rw [show status_scores.lookup "PAUSED" = some (6/10) from rfl]
    constructor <;> norm_num
  by_cases h4 : st = "COMPLETED"
  · subst h4
    rw [show status_scores.lookup "COMPLETED" = some (9/10) from rfl]
    constructor <;> norm_num
  by_cases h5 : st = "SHUTDOWN"
  · subst h5
    rw [show status_scores.lookup "SHUTDOWN" = some (5/10) from rfl]
    constructor <;> norm_num
  rw [lookup_default_of_unknown st h1 h2 h3 h4 h5]
  constructor <;> norm_num

lemma health_score_bounds (t s : ℚ) (st : String) :
    0 ≤ calculate_health_score t s st ∧ calculate_health_score t s st ≤ 1 := by
  obtain ⟨ha0, ha1⟩ := dev_score_bounds t 25 15 (by norm_num)
  obtain ⟨hb0, hb1⟩ := dev_score_bounds s 1500 700 (by norm_num)
  obtain ⟨hc0, hc1⟩ := status_score_bounds st
  unfold calculate_health_score
  constructor
  · have h0 : ((0 : ℤ) : ℚ) ≤ (max 0 (1 - |t - 25| / 15) + max 0 (1 - |s - 1500| / 700)
        + (status_scores.lookup st).getD (5/10)) / 3 := by
      push_cast
      linarith
    have := le_round2 0 _ h0
    push_cast at this
    exact this
  · have hle : (max 0 (1 - |t - 25| / 15) + max 0 (1 - |s - 1500| / 700)
        + (status_scores.lookup st).getD (5/10)) / 3 ≤ ((1 : ℤ) : ℚ) := by
      push_cast
      linarith
    have := round2_le 1 _ hle
    push_cast at this
    exact this

/-- **C6.** The health score: the two boundary evaluations of the spec
(`25/1500/RUNNING ↦ 1.0`, `25/1500/SHUTDOWN ↦ 0.83`), the default score
`0.5` for a status outside the table (same result as for `SHUTDOWN`), and
the score always lies in `[0, 1]`. -/
theorem c6_health_score (t s : ℚ) (st : String)
    (hun : st ∉ ["STARTED", "RUNNING", "PAUSED", "COMPLETED", "SHUTDOWN"]) :
    calculate_health_score 25 1500 "RUNNING" = 1 ∧
    calculate_health_score 25 1500 "SHUTDOWN" = 83/100 ∧
    calculate_health_score t s st = calculate_health_score t s "SHUTDOWN" ∧
    (∀ (t2 s2 : ℚ) (st2 : String),
      0 ≤ calculate_health_score t2 s2 st2 ∧ calculate_health_score t2 s2 st2 ≤ 1) := by
  have e1 : calculate_health_score 25 1500 "RUNNING" = 1 := by
    have hl : status_scores.lookup "RUNNING" = some 1 := rfl
    norm_num [calculate_health_score, hl, round2, pyRound, Int.fract]
  have e2 : calculate_health_score 25 1500 "SHUTDOWN" = 83/100 := by
    have hl : status_scores.lookup "SHUTDOWN" = some (5/10) := rfl
    norm_num [calculate_health_score, hl, round2, pyRound, Int.fract]
  refine ⟨e1, e2, ?_, fun t2 s2 st2 => health_score_bounds t2 s2 st2⟩
  simp only [List.mem_cons, List.not_mem_nil, or_false, not_or] at hun
  obtain ⟨h1, h2, h3, h4, h5⟩ := hun
  unfold calculate_health_score
  rw [lookup_default_of_unknown st h1 h2 h3 h4 h5]
  rfl

/-- Witness for C6 at the concrete unknown status `"FOO"`. -/
theorem c6_health_score_witness :
    ("FOO" ∉ ["STARTED", "RUNNING", "PAUSED", "COMPLETED", "SHUTDOWN"]) ∧
    (calculate_health_score 25 1500 "RUNNING" = 1 ∧
     calculate_health_score 25 1500 "SHUTDOWN" = 83/100 ∧
     calculate_health_score 20 1200 "FOO" = calculate_health_score 20 1200 "SHUTDOWN" ∧
     (∀ (t2 s2 : ℚ) (st2 : String),
       0 ≤ calculate_health_score t2 s2 st2 ∧ calculate_health_score t2 s2 st2 ≤ 1)) :=
  ⟨by simp, c6_health_score 20 1200 "FOO" (by simp)⟩

/-! ### C7: moving average and trend -/

/-- **C7.** `calculate_moving_stats`: a single-value window yields the
value itself as moving average; an empty window yields an undefined (NaN)
average and trend `"insufficient_data"`; a single sample yields trend
`"stable"`; with at least two samples the trend compares the two most
recent raw values against the `0.1` threshold. -/
theorem c7_moving_stats (v : ℚ) (w : Nat) (values : List ℚ) (hw : 1 ≤ w) :
    (calculate_moving_stats [v] w).moving_avg = some v ∧
    calculate_moving_stats [] w = ⟨none, "insufficient_data"⟩ ∧
    (calculate_moving_stats [v] w).trend = "stable" ∧
    (values ≠ [] → (calculate_moving_stats values w).trend =
      (if values.length < 2 then "stable"
       else if |values.getLastD 0 - values.dropLast.getLastD 0| < 1/10 then "stable"
       else if 0 < values.getLastD 0 - values.dropLast.getLastD 0 then "increasing"
       else "decreasing")) := by
  refine ⟨?_, rfl, ?_, ?_⟩
  · show some (((List.replicate (w-1) v ++ [v]).drop
        ((List.replicate (w-1) v ++ [v]).length - w)).sum / (w : ℚ)) = some v
    have hlen : (List.replicate (w-1) v ++ [v]).length = w := by
      simp [List.length_replicate]
      omega
    rw [hlen, Nat.sub_self, List.drop_zero, List.sum_append, List.sum_replicate]
    have hw0 : ((w : ℚ)) ≠ 0 := Nat.cast_ne_zero.mpr (by omega)
    congr 1
    rw [nsmul_eq_mul, List.sum_cons, List.sum_nil]
    have hcast : ((w - 1 : ℕ) : ℚ) = (w : ℚ) - 1 := by
      push_cast [Nat.cast_sub hw]
      ring
    rw [hcast]
    field_simp
    ring
  · simp only [calculate_moving_stats]
    have hc : ¬(2 ≤ ([v] : List ℚ).length) := by simp
    rw [if_neg hc]
  · intro hne
    rcases values with - | ⟨x, xs⟩
    · exact absurd rfl hne
    simp only [calculate_moving_stats]
    by_cases h2 : 2 ≤ (x :: xs).length
    · have hnl : ¬((x :: xs).length < 2) := by omega
      rw [if_pos h2, if_neg hnl]
    · have hl : (x :: xs).length < 2 := by omega
      rw [if_neg h2, if_pos hl]

/-- Witness for C7 at concrete inputs: `v = 3`, `w = 5`,
`values = [1, 2]`. -/
theorem c7_moving_stats_witness :
    (1 ≤ 5) ∧
    ((calculate_moving_stats [3] 5).moving_avg = some 3 ∧
     calculate_moving_stats [] 5 = ⟨none, "insufficient_data"⟩ ∧
     (calculate_moving_stats [3] 5).trend = "stable" ∧
     (([1, 2] : List ℚ) ≠ [] → (calculate_moving_stats [1, 2] 5).trend =
       (if ([1, 2] : List ℚ).length < 2 then "stable"
        else if |([1, 2] : List ℚ).getLastD 0 - ([1, 2] : List ℚ).dropLast.getLastD 0| < 1/10
          then "stable"
        else if 0 < ([1, 2] : List ℚ).getLastD 0 - ([1, 2] : List ℚ).dropLast.getLastD 0
          then "increasing"
        else "decreasing"))) :=
  ⟨by norm_num, c7_moving_stats 3 5 [1, 2] (by norm_num)⟩

/-! ### C5: window bound invariant -/

lemma pySliceLast_length {α : Type} (w : Nat) (hw : 1 ≤ w) (l : List α) :
    (pySliceLast w l).length = min l.length w := by
  unfold pySliceLast
  rw [if_neg (by omega), List.length_drop]
  omega

lemma update_buffers_lengths (w : Nat) (hw : 1 ≤ w) :
    ∀ (rs : List Reading) (b : Buffers) (n : Nat),
    b.temp_buffer.length = n → b.speed_buffer.length = n →
    b.status_buffer.length = n → n ≤ w →
    (update_buffers w b rs).temp_buffer.length = min (n + rs.length) w ∧
    (update_buffers w b rs).speed_buffer.length = min (n + rs.length) w ∧
    (update_buffers w b rs).status_buffer.length = min (n + rs.length) w := by
  intro rs
  induction rs with
  | nil =>
      intro b n ht hs hst hn
      refine ⟨?_, ?_, ?_⟩ <;>
        simp [update_buffers, ht, hs, hst] <;> omega
  | cons r rs ih =>
      intro b n ht hs hst hn
      have hstep : update_buffers w b (r :: rs) = update_buffers w (pushReading w b r) rs := rfl
      have hT : (pushReading w b r).temp_buffer.length = min (n + 1) w := by
        simp [pushReading, pySliceLast_length w hw, ht]
      have hS : (pushReading w b r).speed_buffer.length = min (n + 1) w := by
        simp [pushReading, pySliceLast_length w hw, hs]
      have hSt : (pushReading w b r).status_buffer.length = min (n + 1) w := by
        simp [pushReading, pySliceLast_length w hw, hst]
      obtain ⟨e1, e2, e3⟩ := ih (pushReading w b r) (min (n + 1) w) hT hS hSt (by omega)
      rw [hstep]
      refine ⟨?_, ?_, ?_⟩ <;> [rw [e1]; rw [e2]; rw [e3]] <;>
        simp only [List.length_cons] <;> omega

/-- **C5.** After any sequence of polls (batches of readings pushed with
`update_buffers` starting from empty buffers), all three metric buffers
have length exactly `min(readings_seen, W)`, in particular at most `W`,
and all three lengths are equal. -/
theorem c5_window_bound (w : Nat) (hw : 1 ≤ w) (batches : List (List Reading)) :
    (batches.foldl (update_buffers w) emptyBuffers).temp_buffer.length
        = min (batches.map List.length).sum w ∧
    (batches.foldl (update_buffers w) emptyBuffers).speed_buffer.length
        = min (batches.map List.length).sum w ∧
    (batches.foldl (update_buffers w) emptyBuffers).status_buffer.length
        = min (batches.map List.length).sum w ∧
    (batches.foldl (update_buffers w) emptyBuffers).temp_buffer.length ≤ w := by
  have hjoin : batches.foldl (update_buffers w) emptyBuffers
      = update_buffers w emptyBuffers batches.flatten := by
    unfold update_buffers
    rw [List.foldl_flatten]
  have hlen : (batches.map List.length).sum = batches.flatten.length :=
    (List.length_flatten batches).symm
  obtain ⟨e1, e2, e3⟩ := update_buffers_lengths w hw batches.flatten emptyBuffers 0
    rfl rfl rfl (by omega)
  rw [hjoin, hlen]
  simp only [Nat.zero_add] at e1 e2 e3
  exact ⟨e1, e2, e3, by rw [e1]; omega⟩

/-- Witness for C5 at `W = 5` and two concrete batches totalling 7
readings. -/
theorem c5_window_bound_witness :
    1 ≤ 5 ∧
    (([[⟨1, 1, 1, "RUNNING"⟩, ⟨2, 2, 2, "RUNNING"⟩, ⟨3, 3, 3, "RUNNING"⟩,
        ⟨4, 4, 4, "RUNNING"⟩],
       [⟨5, 5, 5, "RUNNING"⟩, ⟨6, 6, 6, "RUNNING"⟩, ⟨7, 7, 7, "RUNNING"⟩]] :
        List (List Reading)).foldl (update_buffers 5) emptyBuffers).temp_buffer.length
      = min (([[⟨1, 1, 1, "RUNNING"⟩, ⟨2, 2, 2, "RUNNING"⟩, ⟨3, 3, 3, "RUNNING"⟩,
        ⟨4, 4, 4, "RUNNING"⟩],
       [⟨5, 5, 5, "RUNNING"⟩, ⟨6, 6, 6, "RUNNING"⟩, ⟨7, 7, 7, "RUNNING"⟩]] :
        List (List Reading)).map List.length).sum 5 :=
  ⟨by norm_num,
    (c5_window_bound 5 (by norm_num)
      [[⟨1, 1, 1, "RUNNING"⟩, ⟨2, 2, 2, "RUNNING"⟩, ⟨3, 3, 3, "RUNNING"⟩,
        ⟨4, 4, 4, "RUNNING"⟩],
       [⟨5, 5, 5, "RUNNING"⟩, ⟨6, 6, 6, "RUNNING"⟩, ⟨7, 7, 7, "RUNNING"⟩]]).1⟩

/-! ### C8: status mode and its tie-break -/

lemma pyMaxBy_stay (key : String → Nat) (m : String) :
    ∀ l : List String, (∀ x ∈ l, ¬ key m < key x) →
    List.foldl (pyMaxStep key) (some m) l = some m := by
  intro l
  induction l with
  | nil => intro _; rfl
  | cons x xs ih =>
      intro h
      have hx : ¬ key m < key x := h x (List.mem_cons_self x xs)
      simp only [List.foldl_cons, pyMaxStep, if_neg hx]
      exact ih (fun y hy => h y (List.mem_cons_of_mem x hy))

lemma pyMaxBy_reach (key : String → Nat) (m : String) :
    ∀ (l : List String) (acc : Option String), m ∈ l →
    (∀ x ∈ l, x ≠ m → key x < key m) →
    (acc = none ∨ ∃ b, acc = some b ∧ key b < key m) →
    List.foldl (pyMaxStep key) acc l = some m := by
  intro l
  induction l with
  | nil => intro acc hm; exact absurd hm (List.not_mem_nil m)
  | cons x xs ih =>
      intro acc hm hmax hacc
      by_cases hxm : x = m
      · subst hxm
        have hnew : pyMaxStep key acc x = some x := by
          rcases hacc with h | ⟨b, hb, hlt⟩
          · rw [h]; rfl
          · rw [hb]
            simp only [pyMaxStep, if_pos hlt]
        simp only [List.foldl_cons, hnew]
        apply pyMaxBy_stay
        intro y hy
        by_cases hym : y = x
        · subst hym; exact lt_irrefl _
        · exact not_lt_of_lt (hmax y (List.mem_cons_of_mem x hy) hym)
      · have hm2 : m ∈ xs := by
          rcases List.mem_cons.mp hm with h | h
          · exact absurd h.symm hxm
          · exact h
        have hxlt : key x < key m := hmax x (List.mem_cons_self x xs) hxm
        have hmax2 : ∀ y ∈ xs, y ≠ m → key y < key m :=
          fun y hy => hmax y (List.mem_cons_of_mem x hy)
        rcases hacc with h | ⟨b, hb, hlt⟩
        · subst h
          simp only [List.foldl_cons, pyMaxStep]
          exact ih (some x) hm2 hmax2 (Or.inr ⟨x, rfl, hxlt⟩)
        · subst hb
          simp only [List.foldl_cons, pyMaxStep]
          by_cases hbx : key b < key x
          · rw [if_pos hbx]
            exact ih (some x) hm2 hmax2 (Or.inr ⟨x, rfl, hxlt⟩)
          · rw [if_neg hbx]
            exact ih (some b) hm2 hmax2 (Or.inr ⟨b, rfl, hlt⟩)

/-- **C8 (amended).** The status mode is the most frequent value of the
window whenever one value is strictly most frequent, for every possible
iteration order of the `set` of distinct statuses; frequency ties, however,
are broken by the first maximal element of that unspecified hash-dependent
`set` iteration order — not by first-encountered-on-scan order over the
window. -/
theorem c8_mode_strict_majority (order buf : List String) (m : String)
    (hperm : List.Perm order buf.dedup) (hm : m ∈ buf)
    (hmax : ∀ s ∈ buf, s ≠ m → buf.count s < buf.count m) :
    status_mode order buf = some m := by
  unfold status_mode pyMaxBy
  apply pyMaxBy_reach
  · rw [hperm.mem_iff]
    exact List.mem_dedup.mpr hm
  · intro x hx hxm
    exact hmax x (List.mem_dedup.mp (hperm.mem_iff.mp hx)) hxm
  · exact Or.inl rfl

/-- Witness for C8 (amended): the window `[STARTED, RUNNING, STARTED]` of
the spec, with the `set` enumerated as `[STARTED, RUNNING]`, yields mode
`STARTED`. -/
theorem c8_mode_strict_majority_witness :
    List.Perm ["STARTED", "RUNNING"]
      (List.dedup ["STARTED", "RUNNING", "STARTED"]) ∧
    "STARTED" ∈ ["STARTED", "RUNNING", "STARTED"] ∧
    (∀ s ∈ ["STARTED", "RUNNING", "STARTED"], s ≠ "STARTED" →
      List.count s ["STARTED", "RUNNING", "STARTED"]
        < List.count "STARTED" ["STARTED", "RUNNING", "STARTED"]) ∧
    status_mode ["STARTED", "RUNNING"] ["STARTED", "RUNNING", "STARTED"]
      = some "STARTED" := by
  refine ⟨?_, ?_, ?_, ?_⟩
  · decide
  · decide
  · decide
  · exact c8_mode_strict_majority ["STARTED", "RUNNING"]
      ["STARTED", "RUNNING", "STARTED"] "STARTED" (by decide) (by decide) (by decide)

/-- **C8 (counterexample).** For the tied window `[STARTED, RUNNING]` of
the claim, the `set` iteration order `[RUNNING, STARTED]` — a legal
enumeration of the two distinct statuses — makes the code report mode
`RUNNING`, not the first-encountered `STARTED`. -/
theorem c8_mode_tiebreak_counterexample :
    List.Nodup ["RUNNING", "STARTED"] ∧
    List.Perm ["RUNNING", "STARTED"] (List.dedup ["STARTED", "RUNNING"]) ∧
    status_mode ["RUNNING", "STARTED"] ["STARTED", "RUNNING"] = some "RUNNING" := by
  refine ⟨by decide, by decide, rfl⟩

/-! ### C3: a malformed line and the rest of the scan -/

/-- **C3 (amended).** A malformed line terminates the scan at that line:
the well-formed lines before it are still parsed and returned (the
exception is caught, the poll does not crash), but the lines after the
malformed one are not read in that scan. -/
theorem c3_malformed_stops_scan :
    ∀ (good : List (Option Reading)) (c : Option ℤ) (rest : List (Option Reading)),
    (∀ x ∈ good, x ≠ none) →
    process_new_readings c (good ++ none :: rest) = process_new_readings c good := by
  intro good
  induction good with
  | nil => intro c rest _; rfl
  | cons a gs ih =>
      intro c rest hgood
      rcases a with - | r
      · exact absurd rfl (hgood none (List.mem_cons_self none gs))
      · have hgs : ∀ x ∈ gs, x ≠ none := fun x hx => hgood x (List.mem_cons_of_mem _ hx)
        simp only [List.cons_append, process_new_readings, List.append_eq]
        rw [ih (some r.timestamp) rest hgs, ih c rest hgs]

/-- Witness for C3 (amended) on a concrete log. -/
theorem c3_malformed_stops_scan_witness :
    (∀ x ∈ [some (⟨1, 30, 1500, "RUNNING"⟩ : Reading)], x ≠ none) ∧
    process_new_readings none
        ([some ⟨1, 30, 1500, "RUNNING"⟩] ++ none :: [some ⟨2, 31, 1500, "RUNNING"⟩])
      = process_new_readings none [some ⟨1, 30, 1500, "RUNNING"⟩] :=
  ⟨by simp,
    c3_malformed_stops_scan [some ⟨1, 30, 1500, "RUNNING"⟩] none
      [some ⟨2, 31, 1500, "RUNNING"⟩] (by simp)⟩

/-- **C3 (counterexample).** With the log
`[good(ts 1), malformed, good(ts 2)]` and no cursor, the scan returns only
the first reading: the well-formed line after the malformed one is *not*
parsed and returned, contrary to the claim. -/
theorem c3_malformed_counterexample :
    process_new_readings none
        [some ⟨1, 30, 1500, "RUNNING"⟩, none, some ⟨2, 31, 1500, "RUNNING"⟩]
      = ([⟨1, 30, 1500, "RUNNING"⟩], some 1) ∧
    (⟨2, 31, 1500, "RUNNING"⟩ : Reading) ∉
      (process_new_readings none
        [some ⟨1, 30, 1500, "RUNNING"⟩, none, some ⟨2, 31, 1500, "RUNNING"⟩]).1 := by
  have h : process_new_readings none
      [some ⟨1, 30, 1500, "RUNNING"⟩, none, some ⟨2, 31, 1500, "RUNNING"⟩]
      = ([⟨1, 30, 1500, "RUNNING"⟩], some 1) := rfl
  refine ⟨h, ?_⟩
  rw [h]
  intro hmem
  have heq := List.mem_singleton.mp hmem
  have : (2 : ℤ) = 1 := congrArg Reading.timestamp heq
  norm_num at this

/-! ### C10: stale (out-of-order / duplicate) records are dropped -/

lemma cursorLe_refl (c : Option ℤ) : cursorLe c c := by
  rcases c with - | a
  · trivial
  · exact le_refl a

lemma cursorLe_trans {a b c : Option ℤ} (h1 : cursorLe a b) (h2 : cursorLe b c) :
    cursorLe a c := by
  rcases a with - | x <;> rcases b with - | y <;> rcases c with - | z <;>
    first
    | trivial
    | exact absurd h1 id
    | exact absurd h2 id
    | exact le_trans h1 h2

lemma cursorLe_of_accept {c : Option ℤ} {t : ℤ} (h : acceptNew c t = true) :
    cursorLe c (some t) := by
  rcases c with - | a
  · trivial
  · exact le_of_lt (of_decide_eq_true h)

lemma accept_trans {c : Option ℤ} {t t2 : ℤ}
    (h1 : acceptNew c t = true) (h2 : acceptNew (some t) t2 = true) :
    acceptNew c t2 = true := by
  rcases c with - | a
  · rfl
  · have ha : a < t := of_decide_eq_true h1
    have hb : t < t2 := of_decide_eq_true h2
    exact decide_eq_true_eq.mpr (lt_trans ha hb)

lemma process_cursor_mono :
    ∀ (lines : List (Option Reading)) (c : Option ℤ),
    cursorLe c (process_new_readings c lines).2 := by
  intro lines
  induction lines with
  | nil => intro c; exact cursorLe_refl c
  | cons a rest ih =>
      intro c
      rcases a with - | r
      · exact cursorLe_refl c
      · simp only [process_new_readings]
        by_cases hacc : acceptNew c r.timestamp = true
        · rw [if_pos hacc]
          exact cursorLe_trans (cursorLe_of_accept hacc) (ih (some r.timestamp))
        · rw [if_neg hacc]
          exact ih c

lemma process_out_increasing :
    ∀ (lines : List (Option Reading)) (c : Option ℤ),
    List.Chain' (fun a b : Reading => a.timestamp < b.timestamp)
      (process_new_readings c lines).1 ∧
    (∀ x ∈ (process_new_readings c lines).1, acceptNew c x.timestamp = true) := by
  intro lines
  induction lines with
  | nil =>
      intro c
      exact ⟨List.chain'_nil, by intro x hx; exact absurd hx (List.not_mem_nil x)⟩
  | cons a rest ih =>
      intro c
      rcases a with - | r
      · exact ⟨List.chain'_nil, by intro x hx; exact absurd hx (List.not_mem_nil x)⟩
      · simp only [process_new_readings]
        by_cases hacc : acceptNew c r.timestamp = true
        · rw [if_pos hacc]
          obtain ⟨ihc, ihm⟩ := ih (some r.timestamp)
          constructor
          · apply List.chain'_cons'.mpr
            refine ⟨?_, ihc⟩
            intro y hy
            have hmem : y ∈ (process_new_readings (some r.timestamp) rest).1 :=
              List.mem_of_mem_head? hy
            exact of_decide_eq_true (ihm y hmem)
          · intro x hx
            rcases List.mem_cons.mp hx with h | h
            · subst h; exact hacc
            · exact accept_trans hacc (ihm x h)
        · rw [if_neg hacc]
          exact ih c

lemma process_skip :
    ∀ (l1 : List (Option Reading)) (c : Option ℤ) (r : Reading)
      (l2 : List (Option Reading)),
    (∀ x ∈ l1, x ≠ none) →
    acceptNew (process_new_readings c l1).2 r.timestamp = false →
    process_new_readings c (l1 ++ some r :: l2) = process_new_readings c (l1 ++ l2) := by
  intro l1
  induction l1 with
  | nil =>
      intro c r l2 _ hstale
      have h0 : acceptNew c r.timestamp = false := hstale
      simp only [List.nil_append, process_new_readings]
      rw [if_neg (by simp [h0])]
  | cons a gs ih =>
      intro c r l2 hl1 hstale
      rcases a with - | q
      · exact absurd rfl (hl1 none (List.mem_cons_self none gs))
      · have hgs : ∀ x ∈ gs, x ≠ none := fun x hx => hl1 x (List.mem_cons_of_mem _ hx)
        simp only [process_new_readings] at hstale
        simp only [List.cons_append, process_new_readings, List.append_eq]
        by_cases hacc : acceptNew c q.timestamp = true
        · rw [if_pos hacc] at hstale ⊢
          rw [if_pos hacc]
          have e := ih (some q.timestamp) r l2 hgs hstale
          rw [e]
        · rw [if_neg hacc] at hstale ⊢
          rw [if_neg hacc]
          exact ih c r l2 hgs hstale

/-- **C10.** A record whose timestamp is not strictly above the running
in-memory cursor (the maximum of the initial cursor and all previously
accepted timestamps) is silently dropped: the scan result is identical to
the scan of the log without that record, so it never reaches the buffers or
an analysis record. Moreover the accepted readings have strictly increasing
timestamps, all strictly above the initial cursor, and the in-memory cursor
is monotonically non-decreasing across the scan. -/
theorem c10_stale_records_dropped (c : Option ℤ) (l1 l2 : List (Option Reading))
    (r : Reading) (hl1 : ∀ x ∈ l1, x ≠ none)
    (hstale : acceptNew (process_new_readings c l1).2 r.timestamp = false) :
    process_new_readings c (l1 ++ some r :: l2) = process_new_readings c (l1 ++ l2) ∧
    cursorLe c (process_new_readings c (l1 ++ some r :: l2)).2 ∧
    List.Chain' (fun a b : Reading => a.timestamp < b.timestamp)
      (process_new_readings c (l1 ++ some r :: l2)).1 ∧
    (∀ x ∈ (process_new_readings c (l1 ++ some r :: l2)).1,
      acceptNew c x.timestamp = true) := by
  obtain ⟨hchain, hmem⟩ := process_out_increasing (l1 ++ some r :: l2) c
  exact ⟨process_skip l1 c r l2 hl1 hstale,
    process_cursor_mono (l1 ++ some r :: l2) c, hchain, hmem⟩

/-- Witness for C10 on a concrete log: cursor starts empty, the file holds
a reading at ts 5, then a stale reading at ts 3, then a reading at ts 7. -/
theorem c10_stale_records_dropped_witness :
    (∀ x ∈ [some (⟨5, 30, 1500, "RUNNING"⟩ : Reading)], x ≠ none) ∧
    acceptNew
      (process_new_readings none [some ⟨5, 30, 1500, "RUNNING"⟩]).2 3 = false ∧
    (process_new_readings none
        ([some ⟨5, 30, 1500, "RUNNING"⟩] ++ some ⟨3, 29, 1400, "PAUSED"⟩ ::
          [some ⟨7, 30, 1500, "RUNNING"⟩])
      = process_new_readings none
        ([some ⟨5, 30, 1500, "RUNNING"⟩] ++ [some ⟨7, 30, 1500, "RUNNING"⟩]) ∧
    cursorLe none
      (process_new_readings none
        ([some ⟨5, 30, 1500, "RUNNING"⟩] ++ some ⟨3, 29, 1400, "PAUSED"⟩ ::
          [some ⟨7, 30, 1500, "RUNNING"⟩])).2 ∧
    List.Chain' (fun a b : Reading => a.timestamp < b.timestamp)
      (process_new_readings none
        ([some ⟨5, 30, 1500, "RUNNING"⟩] ++ some ⟨3, 29, 1400, "PAUSED"⟩ ::
          [some ⟨7, 30, 1500, "RUNNING"⟩])).1 ∧
    (∀ x ∈ (process_new_readings none
        ([some ⟨5, 30, 1500, "RUNNING"⟩] ++ some ⟨3, 29, 1400, "PAUSED"⟩ ::
          [some ⟨7, 30, 1500, "RUNNING"⟩])).1,
      acceptNew none x.timestamp = true)) :=
  ⟨by simp, rfl,
    c10_stale_records_dropped none [some ⟨5, 30, 1500, "RUNNING"⟩]
      [some ⟨7, 30, 1500, "RUNNING"⟩] ⟨3, 29, 1400, "PAUSED"⟩ (by simp) rfl⟩

/-! ### C1: cursor persistence vs. record write -/

/-- **C1 (counterexample).** One `run` cycle on a fresh system with one new
reading at timestamp 1 and a *failing* CSV write: the record is not written
(the rows stay empty — `save_to_csv` catches the error and returns), yet
`run` still persists the cursor at timestamp 1, skipping the reading whose
analysis was never durably recorded. -/
theorem c1_cursor_advance_counterexample :
    (run_cycle dedupMode 5 false ⟨⟨none, emptyBuffers⟩, [], none⟩
        [some ⟨1, 30, 1500, "RUNNING"⟩]).csv_rows = [] ∧
    (run_cycle dedupMode 5 false ⟨⟨none, emptyBuffers⟩, [], none⟩
        [some ⟨1, 30, 1500, "RUNNING"⟩]).cursor_file = some 1 := by
  constructor <;> rfl

/-- **C1 (amended).** In each cycle that produces an analysis, `run` saves
the cursor at the analysis timestamp *after attempting* the record write:
when the write succeeds, the row is durably appended before the cursor file
is advanced (the ordering the spec claims); but when the write fails, the
error is caught inside `save_to_csv` and the cursor file is advanced
anyway, so the record for that timestamp is lost. -/
theorem c1_cursor_saved_after_write_attempt (modeFn : List String → Option String)
    (w : Nat) (writeOk : Bool) (sys : SysState) (lines : List (Option Reading))
    (a : Analysis) (h : (process_and_analyze modeFn w sys.proc lines).2 = some a) :
    (run_cycle modeFn w writeOk sys lines).cursor_file = some a.timestamp ∧
    (writeOk = true →
      (run_cycle modeFn w writeOk sys lines).csv_rows = sys.csv_rows ++ [a]) ∧
    (writeOk = false →
      (run_cycle modeFn w writeOk sys lines).csv_rows = sys.csv_rows) := by
  simp only [run_cycle, h, save_to_csv]
  cases writeOk <;> simp

/-- Witness for C1 (amended) on a concrete cycle with a failing write. -/
theorem c1_cursor_saved_after_write_attempt_witness :
    ((process_and_analyze dedupMode 5 (⟨⟨none, emptyBuffers⟩, [], none⟩ : SysState).proc
        [some ⟨1, 30, 1500, "RUNNING"⟩]).2
      = some (mkAnalysis dedupMode 5
          (update_buffers 5 emptyBuffers [⟨1, 30, 1500, "RUNNING"⟩])
          ⟨1, 30, 1500, "RUNNING"⟩)) ∧
    ((run_cycle dedupMode 5 false ⟨⟨none, emptyBuffers⟩, [], none⟩
        [some ⟨1, 30, 1500, "RUNNING"⟩]).cursor_file
      = some (mkAnalysis dedupMode 5
          (update_buffers 5 emptyBuffers [⟨1, 30, 1500, "RUNNING"⟩])
          ⟨1, 30, 1500, "RUNNING"⟩).timestamp ∧
    (false = true →
      (run_cycle dedupMode 5 false ⟨⟨none, emptyBuffers⟩, [], none⟩
        [some ⟨1, 30, 1500, "RUNNING"⟩]).csv_rows
        = (⟨⟨none, emptyBuffers⟩, [], none⟩ : SysState).csv_rows
            ++ [mkAnalysis dedupMode 5
                (update_buffers 5 emptyBuffers [⟨1, 30, 1500, "RUNNING"⟩])
                ⟨1, 30, 1500, "RUNNING"⟩]) ∧
    (false = false →
      (run_cycle dedupMode 5 false ⟨⟨none, emptyBuffers⟩, [], none⟩
        [some ⟨1, 30, 1500, "RUNNING"⟩]).csv_rows
        = (⟨⟨none, emptyBuffers⟩, [], none⟩ : SysState).csv_rows)) :=
  ⟨rfl, c1_cursor_saved_after_write_attempt dedupMode 5 false
    ⟨⟨none, emptyBuffers⟩, [], none⟩ [some ⟨1, 30, 1500, "RUNNING"⟩]
    (mkAnalysis dedupMode 5
      (update_buffers 5 emptyBuffers [⟨1, 30, 1500, "RUNNING"⟩])
      ⟨1, 30, 1500, "RUNNING"⟩) rfl⟩

/-! ### C2: resuming from the cursor vs. running continuously -/

lemma acceptNew_some_true {a t : ℤ} (h : a < t) : acceptNew (some a) t = true :=
  decide_eq_true_eq.mpr h

lemma acceptNew_some_false {a t : ℤ} (h : ¬ a < t) : acceptNew (some a) t = false := by
  simp only [acceptNew, decide_eq_false_iff_not]
  exact h

lemma snapshotsFrom_append (l1 l2 : List Reading) :
    ∀ acc, snapshotsFrom acc (l1 ++ l2)
      = snapshotsFrom acc l1 ++ snapshotsFrom (acc ++ l1) l2 := by
  induction l1 with
  | nil => intro acc; simp [snapshotsFrom]
  | cons r rs ih =>
      intro acc
      simp only [List.cons_append, snapshotsFrom, List.append_eq, List.append_nil]
      rw [ih (acc ++ [r])]
      simp

lemma pollManySt_append (m : List String → Option String) (w : Nat) :
    ∀ (fs1 fs2 : List (List (Option Reading))) (st : ProcState),
    pollManySt m w st (fs1 ++ fs2)
      = ((pollManySt m w (pollManySt m w st fs1).1 fs2).1,
         (pollManySt m w st fs1).2 ++ (pollManySt m w (pollManySt m w st fs1).1 fs2).2) := by
  intro fs1
  induction fs1 with
  | nil => intro fs2 st; simp [pollManySt]
  | cons f fs ih =>
      intro fs2 st
      simp only [List.cons_append, pollManySt, List.append_eq]
      rw [ih fs2 (process_and_analyze m w st f).1, List.append_assoc]

lemma process_all_old : ∀ (l : List Reading) (c : Option ℤ),
    (∀ x ∈ l, acceptNew c x.timestamp = false) →
    process_new_readings c (l.map some) = ([], c) := by
  intro l
  induction l with
  | nil => intro c _; rfl
  | cons r rs ih =>
      intro c h
      have hr : acceptNew c r.timestamp = false := h r (List.mem_cons_self r rs)
      simp only [List.map_cons, process_new_readings]
      rw [if_neg (by simp [hr])]
      exact ih c (fun x hx => h x (List.mem_cons_of_mem r hx))

lemma process_old_then_new : ∀ (acc : List Reading) (c : Option ℤ) (r : Reading),
    (∀ x ∈ acc, acceptNew c x.timestamp = false) →
    acceptNew c r.timestamp = true →
    process_new_readings c ((acc ++ [r]).map some) = ([r], some r.timestamp) := by
  intro acc
  induction acc with
  | nil =>
      intro c r _ hr
      simp only [List.nil_append, List.map_cons, List.map_nil, process_new_readings]
      rw [if_pos hr]
  | cons q qs ih =>
      intro c r hold hr
      have hq : acceptNew c q.timestamp = false := hold q (List.mem_cons_self q qs)
      simp only [List.cons_append, List.map_cons, process_new_readings]
      rw [if_neg (by simp [hq])]
      exact ih c r (fun x hx => hold x (List.mem_cons_of_mem q hx)) hr

lemma pollManySt_allOld (m : List String → Option String) (w : Nat) :
    ∀ (l acc : List Reading) (c : Option ℤ) (b : Buffers),
    (∀ x ∈ acc, acceptNew c x.timestamp = false) →
    (∀ x ∈ l, acceptNew c x.timestamp = false) →
    pollManySt m w ⟨c, b⟩ (snapshotsFrom acc l) = (⟨c, b⟩, []) := by
  intro l
  induction l with
  | nil => intro acc c b _ _; rfl
  | cons r rs ih =>
      intro acc c b hacc hl
      have hfile : ∀ x ∈ acc ++ [r], acceptNew c x.timestamp = false := by
        intro x hx
        rcases List.mem_append.mp hx with h | h
        · exact hacc x h
        · rw [List.mem_singleton.mp h]
          exact hl r (List.mem_cons_self r rs)
      have hproc : process_new_readings c ((acc ++ [r]).map some) = ([], c) :=
        process_all_old (acc ++ [r]) c hfile
      simp only [snapshotsFrom, pollManySt, process_and_analyze, hproc]
      simp only [List.isEmpty_nil, if_pos, Option.toList_none, List.nil_append]
      exact ih (acc ++ [r]) c b hfile
        (fun x hx => hl x (List.mem_cons_of_mem r hx))

lemma mem_le_getLastD :
    ∀ (l : List Reading),
    List.Pairwise (fun a b : Reading => a.timestamp < b.timestamp) l →
    ∀ x ∈ l, x.timestamp ≤ (l.getLastD default).timestamp := by
  intro l
  induction l with
  | nil => intro _ x hx; exact absurd hx (List.not_mem_nil x)
  | cons a rest ih =>
      intro hpw x hx
      rcases rest with - | ⟨b, rest2⟩
      · rw [List.mem_singleton.mp hx]
        exact le_refl _
      · have hlast : ((a :: b :: rest2).getLastD default)
            = ((b :: rest2).getLastD default) := rfl
        rw [hlast]
        rcases List.mem_cons.mp hx with h | h
        · subst h
          have hmem : (b :: rest2).getLastD default ∈ b :: rest2 := by
            rw [List.getLastD_cons]
            exact List.getLastD_mem_cons rest2 b
          exact le_of_lt ((List.pairwise_cons.mp hpw).1 _ hmem)
        · exact ih (List.pairwise_cons.mp hpw).2 x h

lemma simpleRun_length (m : List String → Option String) (w : Nat) :
    ∀ (l : List Reading) (b : Buffers), (simpleRun m w b l).length = l.length := by
  intro l
  induction l with
  | nil => intro b; rfl
  | cons r rs ih =>
      intro b
      simp only [simpleRun, List.length_cons, ih]

lemma simpleRun_append (m : List String → Option String) (w : Nat) :
    ∀ (l1 l2 : List Reading) (b : Buffers),
    simpleRun m w b (l1 ++ l2)
      = simpleRun m w b l1 ++ simpleRun m w (l1.foldl (pushReading w) b) l2 := by
  intro l1
  induction l1 with
  | nil => intro l2 b; rfl
  | cons r rs ih =>
      intro l2 b
      simp only [List.cons_append, simpleRun, List.foldl_cons, List.append_eq]
      rw [ih l2 (pushReading w b r)]

lemma simpleRun_currentPart (m : List String → Option String) (w : Nat) :
    ∀ (l : List Reading) (b1 b2 : Buffers),
    (simpleRun m w b1 l).map currentPart = (simpleRun m w b2 l).map currentPart := by
  intro l
  induction l with
  | nil => intro b1 b2; rfl
  | cons r rs ih =>
      intro b1 b2
      simp only [simpleRun, List.map_cons]
      rw [show currentPart (mkAnalysis m w (pushReading w b1 r) r)
          = currentPart (mkAnalysis m w (pushReading w b2 r) r) from rfl,
        ih (pushReading w b1 r) (pushReading w b2 r)]

lemma pollManySt_snapshots_run (m : List String → Option String) (w : Nat) :
    ∀ (rest acc : List Reading) (c : Option ℤ) (b : Buffers),
    (∀ x ∈ acc, acceptNew c x.timestamp = false) →
    (∀ x ∈ acc, ∀ y ∈ rest, x.timestamp < y.timestamp) →
    List.Pairwise (fun a b : Reading => a.timestamp < b.timestamp) rest →
    (∀ y ∈ rest, acceptNew c y.timestamp = true) →
    (pollManySt m w ⟨c, b⟩ (snapshotsFrom acc rest)).2 = simpleRun m w b rest := by
  intro rest
  induction rest with
  | nil => intro acc c b _ _ _ _; rfl
  | cons r rs ih =>
      intro acc c b hacc hcross hpw hnew
      have hr : acceptNew c r.timestamp = true := hnew r (List.mem_cons_self r rs)
      have hproc : process_new_readings c ((acc ++ [r]).map some)
          = ([r], some r.timestamp) :=
        process_old_then_new acc c r hacc hr
      obtain ⟨hpwhead, hpwtail⟩ := List.pairwise_cons.mp hpw
      have hacc2 : ∀ x ∈ acc ++ [r],
          acceptNew (some r.timestamp) x.timestamp = false := by
        intro x hx
        rcases List.mem_append.mp hx with h | h
        · exact acceptNew_some_false
            (not_lt_of_lt (hcross x h r (List.mem_cons_self r rs)))
        · rw [List.mem_singleton.mp h]
          exact acceptNew_some_false (lt_irrefl _)
      have hcross2 : ∀ x ∈ acc ++ [r], ∀ y ∈ rs, x.timestamp < y.timestamp := by
        intro x hx y hy
        rcases List.mem_append.mp hx with h | h
        · exact hcross x h y (List.mem_cons_of_mem r hy)
        · rw [List.mem_singleton.mp h]
          exact hpwhead y hy
      have hnew2 : ∀ y ∈ rs, acceptNew (some r.timestamp) y.timestamp = true :=
        fun y hy => acceptNew_some_true (hpwhead y hy)
      have htail := ih (acc ++ [r]) (some r.timestamp) (pushReading w b r)
        hacc2 hcross2 hpwtail hnew2
      simp only [snapshotsFrom, pollManySt, process_and_analyze, hproc,
        List.isEmpty_cons, Bool.false_eq_true, if_false, Option.toList_some,
        List.cons_append, List.nil_append, List.getLastD_cons, List.getLastD_nil]
      rw [show update_buffers w b [r] = pushReading w b r from rfl]
      rw [htail]
      rfl

/-- **C2 (amended).** With strictly increasing timestamps, resuming a
freshly initialized analyzer from the cursor at the last reading of `pre`
over the log `pre ++ post` emits exactly one record per reading of `post`
— the same readings as the continuous run's records after the first
`pre.length` — and those records agree on every field derived from the
current reading (timestamp, current values, outlier flags, status, health
score, alerts). The window-derived fields (moving averages, trends, mode,
distinct count) are *not* part of this equality: the fresh run's buffers
restart empty, so they generally differ (see the counterexample). -/
theorem c2_resume_same_current_fields (modeFn : List String → Option String)
    (w : Nat) (pre post : List Reading) (hpre : pre ≠ [])
    (hpw : List.Pairwise (fun a b : Reading => a.timestamp < b.timestamp)
      (pre ++ post)) :
    (runAnalyzer modeFn w ⟨some ((pre.getLastD default).timestamp), emptyBuffers⟩
        (pre ++ post)).length = post.length ∧
    (runAnalyzer modeFn w ⟨some ((pre.getLastD default).timestamp), emptyBuffers⟩
        (pre ++ post)).map currentPart
      = ((runAnalyzer modeFn w ⟨none, emptyBuffers⟩ (pre ++ post)).drop
          pre.length).map currentPart := by
  obtain ⟨hpwpre, hpwpost, hcross⟩ := List.pairwise_append.mp hpw
  have hlastmem : pre.getLastD default ∈ pre := by
    rcases pre with - | ⟨a, l⟩
    · exact absurd rfl hpre
    · rw [List.getLastD_cons]
      exact List.getLastD_mem_cons l a
  have hpre_false : ∀ x ∈ pre,
      acceptNew (some ((pre.getLastD default).timestamp)) x.timestamp = false :=
    fun x hx => acceptNew_some_false (not_lt.mpr (mem_le_getLastD pre hpwpre x hx))
  have hpost_true : ∀ y ∈ post,
      acceptNew (some ((pre.getLastD default).timestamp)) y.timestamp = true :=
    fun y hy => acceptNew_some_true (hcross _ hlastmem y hy)
  have hcont : runAnalyzer modeFn w ⟨none, emptyBuffers⟩ (pre ++ post)
      = simpleRun modeFn w emptyBuffers (pre ++ post) := by
    unfold runAnalyzer
    exact pollManySt_snapshots_run modeFn w (pre ++ post) [] none emptyBuffers
      (fun x hx => absurd hx (List.not_mem_nil x))
      (fun x hx => absurd hx (List.not_mem_nil x))
      hpw (fun y _ => rfl)
  have hfresh : runAnalyzer modeFn w
      ⟨some ((pre.getLastD default).timestamp), emptyBuffers⟩ (pre ++ post)
      = simpleRun modeFn w emptyBuffers post := by
    unfold runAnalyzer
    rw [snapshotsFrom_append pre post [], pollManySt_append]
    rw [pollManySt_allOld modeFn w pre [] _ emptyBuffers
      (fun x hx => absurd hx (List.not_mem_nil x)) hpre_false]
    simp only [List.nil_append]
    exact pollManySt_snapshots_run modeFn w post pre _ emptyBuffers
      hpre_false hcross hpwpost hpost_true
  constructor
  · rw [hfresh, simpleRun_length]
  · rw [hfresh, hcont, simpleRun_append]
    rw [show pre.length = (simpleRun modeFn w emptyBuffers pre).length from
      (simpleRun_length modeFn w pre emptyBuffers).symm]
    rw [List.drop_left]
    exact simpleRun_currentPart modeFn w post emptyBuffers
      (pre.foldl (pushReading w) emptyBuffers)

/-- Witness for C2 (amended) at a concrete two-reading log split after the
first reading. -/
theorem c2_resume_same_current_fields_witness :
    (([⟨1, 10, 1500, "RUNNING"⟩] : List Reading) ≠ []) ∧
    List.Pairwise (fun a b : Reading => a.timestamp < b.timestamp)
      (([⟨1, 10, 1500, "RUNNING"⟩] : List Reading) ++ [⟨2, 20, 1500, "RUNNING"⟩]) ∧
    ((runAnalyzer dedupMode 5
        ⟨some ((([⟨1, 10, 1500, "RUNNING"⟩] : List Reading).getLastD default).timestamp),
          emptyBuffers⟩
        (([⟨1, 10, 1500, "RUNNING"⟩] : List Reading) ++ [⟨2, 20, 1500, "RUNNING"⟩])).length
      = ([(⟨2, 20, 1500, "RUNNING"⟩ : Reading)] : List Reading).length ∧
    (runAnalyzer dedupMode 5
        ⟨some ((([⟨1, 10, 1500, "RUNNING"⟩] : List Reading).getLastD default).timestamp),
          emptyBuffers⟩
        (([⟨1, 10, 1500, "RUNNING"⟩] : List Reading) ++ [⟨2, 20, 1500, "RUNNING"⟩])).map currentPart
      = ((runAnalyzer dedupMode 5 ⟨none, emptyBuffers⟩
          (([⟨1, 10, 1500, "RUNNING"⟩] : List Reading) ++ [⟨2, 20, 1500, "RUNNING"⟩])).drop
            ([⟨1, 10, 1500, "RUNNING"⟩] : List Reading).length).map currentPart) := by
  refine ⟨by simp, ?hpw, ?main⟩
  case hpw =>
    simp only [List.cons_append, List.nil_append]
    exact List.Pairwise.cons (by intro y hy; rw [List.mem_singleton.mp hy]; decide)
      (List.pairwise_singleton _ _)
  case main =>
    exact c2_resume_same_current_fields dedupMode 5 [⟨1, 10, 1500, "RUNNING"⟩]
      [⟨2, 20, 1500, "RUNNING"⟩] (by simp)
      (by simp only [List.cons_append, List.nil_append]
          exact List.Pairwise.cons
            (by intro y hy; rw [List.mem_singleton.mp hy]; decide)
            (List.pairwise_singleton _ _))

lemma moving_avg_singleton (v : ℚ) (w : Nat) (hw : 1 ≤ w) :
    (calculate_moving_stats [v] w).moving_avg = some v := by
  show some (((List.replicate (w-1) v ++ [v]).drop
      ((List.replicate (w-1) v ++ [v]).length - w)).sum / (w : ℚ)) = some v
  have hlen : (List.replicate (w-1) v ++ [v]).length = w := by
    simp [List.length_replicate]
    omega
  rw [hlen, Nat.sub_self, List.drop_zero, List.sum_append, List.sum_replicate]
  have hw0 : ((w : ℚ)) ≠ 0 := Nat.cast_ne_zero.mpr (by omega)
  congr 1
  rw [nsmul_eq_mul, List.sum_cons, List.sum_nil]
  have hcast : ((w - 1 : ℕ) : ℚ) = (w : ℚ) - 1 := by
    push_cast [Nat.cast_sub hw]
    ring
  rw [hcast]
  field_simp
  ring

lemma moving_avg_ten_twenty :
    (calculate_moving_stats [(10:ℚ), 20] 5).moving_avg = some 12 := by
  simp only [calculate_moving_stats]
  norm_num [List.replicate_succ, List.replicate_zero, List.length_append,
    List.length_replicate, List.length_cons, List.length_nil, List.drop_succ_cons,
    List.drop_zero, List.sum_append, List.sum_cons, List.sum_nil]

/-- **C2 (counterexample).** The claim's bit-identical resume fails: for
the strictly increasing two-reading log with temperatures 10 then 20 and
the cursor at the timestamp of reading 1, the fresh run's single record for
reading 2 carries temperature moving average 20 (its window restarted
empty), while the continuous run's record for reading 2 carries moving
average 12 (window `[10, 20]` edge-padded to width 5), so the two outputs
are not equal. -/
theorem c2_resume_counterexample :
    List.Pairwise (fun a b : Reading => a.timestamp < b.timestamp)
      ([⟨1, 10, 1500, "RUNNING"⟩, ⟨2, 20, 1500, "RUNNING"⟩] : List Reading) ∧
    ((runAnalyzer dedupMode 5 ⟨some 1, emptyBuffers⟩
        [⟨1, 10, 1500, "RUNNING"⟩, ⟨2, 20, 1500, "RUNNING"⟩]).map
          (fun a => a.temperature_moving_avg) = [some 20]) ∧
    (((runAnalyzer dedupMode 5 ⟨none, emptyBuffers⟩
        [⟨1, 10, 1500, "RUNNING"⟩, ⟨2, 20, 1500, "RUNNING"⟩]).drop 1).map
          (fun a => a.temperature_moving_avg) = [some 12]) ∧
    runAnalyzer dedupMode 5 ⟨some 1, emptyBuffers⟩
        [⟨1, 10, 1500, "RUNNING"⟩, ⟨2, 20, 1500, "RUNNING"⟩]
      ≠ (runAnalyzer dedupMode 5 ⟨none, emptyBuffers⟩
        [⟨1, 10, 1500, "RUNNING"⟩, ⟨2, 20, 1500, "RUNNING"⟩]).drop 1 := by
  have hpw2 : List.Pairwise (fun a b : Reading => a.timestamp < b.timestamp)
      ([⟨1, 10, 1500, "RUNNING"⟩, ⟨2, 20, 1500, "RUNNING"⟩] : List Reading) :=
    List.Pairwise.cons (by intro y hy; rw [List.mem_singleton.mp hy]; decide)
      (List.pairwise_singleton _ _)
  have hfresh : runAnalyzer dedupMode 5 ⟨some 1, emptyBuffers⟩
      [⟨1, 10, 1500, "RUNNING"⟩, ⟨2, 20, 1500, "RUNNING"⟩]
      = simpleRun dedupMode 5 emptyBuffers [⟨2, 20, 1500, "RUNNING"⟩] := by
    show runAnalyzer dedupMode 5 ⟨some 1, emptyBuffers⟩
        (([⟨1, 10, 1500, "RUNNING"⟩] : List Reading) ++ [⟨2, 20, 1500, "RUNNING"⟩]) = _
    unfold runAnalyzer
    rw [snapshotsFrom_append [⟨1, 10, 1500, "RUNNING"⟩] [⟨2, 20, 1500, "RUNNING"⟩] [],
      pollManySt_append,
      pollManySt_allOld dedupMode 5 [⟨1, 10, 1500, "RUNNING"⟩] [] (some 1) emptyBuffers
        (fun x hx => absurd hx (List.not_mem_nil x))
        (by intro x hx; rw [List.mem_singleton.mp hx]; rfl)]
    simp only [List.nil_append]
    exact pollManySt_snapshots_run dedupMode 5 [⟨2, 20, 1500, "RUNNING"⟩]
      [⟨1, 10, 1500, "RUNNING"⟩] (some 1) emptyBuffers
      (by intro x hx; rw [List.mem_singleton.mp hx]; rfl)
      (by intro x hx y hy
          rw [List.mem_singleton.mp hx, List.mem_singleton.mp hy]
          decide)
      (List.pairwise_singleton _ _)
      (by intro y hy; rw [List.mem_singleton.mp hy]; rfl)
  have hcont : runAnalyzer dedupMode 5 ⟨none, emptyBuffers⟩
      [⟨1, 10, 1500, "RUNNING"⟩, ⟨2, 20, 1500, "RUNNING"⟩]
      = simpleRun dedupMode 5 emptyBuffers
          [⟨1, 10, 1500, "RUNNING"⟩, ⟨2, 20, 1500, "RUNNING"⟩] := by
    unfold runAnalyzer
    exact pollManySt_snapshots_run dedupMode 5
      [⟨1, 10, 1500, "RUNNING"⟩, ⟨2, 20, 1500, "RUNNING"⟩] [] none emptyBuffers
      (fun x hx => absurd hx (List.not_mem_nil x))
      (fun x hx => absurd hx (List.not_mem_nil x))
      hpw2 (fun y _ => rfl)
  have e1 : (runAnalyzer dedupMode 5 ⟨some 1, emptyBuffers⟩
      [⟨1, 10, 1500, "RUNNING"⟩, ⟨2, 20, 1500, "RUNNING"⟩]).map
        (fun a => a.temperature_moving_avg) = [some 20] := by
    rw [hfresh]
    have hstep : (simpleRun dedupMode 5 emptyBuffers [⟨2, 20, 1500, "RUNNING"⟩]).map
        (fun a => a.temperature_moving_avg)
        = [(calculate_moving_stats [(20:ℚ)] 5).moving_avg] := rfl
    rw [hstep, moving_avg_singleton 20 5 (by norm_num)]
  have e2 : ((runAnalyzer dedupMode 5 ⟨none, emptyBuffers⟩
      [⟨1, 10, 1500, "RUNNING"⟩, ⟨2, 20, 1500, "RUNNING"⟩]).drop 1).map
        (fun a => a.temperature_moving_avg) = [some 12] := by
    rw [hcont]
    have hstep : ((simpleRun dedupMode 5 emptyBuffers
        [⟨1, 10, 1500, "RUNNING"⟩, ⟨2, 20, 1500, "RUNNING"⟩]).drop 1).map
        (fun a => a.temperature_moving_avg)
        = [(calculate_moving_stats [(10:ℚ), 20] 5).moving_avg] := rfl
    rw [hstep, moving_avg_ten_twenty]
  refine ⟨hpw2, e1, e2, ?_⟩
  intro heq
  have hmap := congrArg (List.map (fun a => a.temperature_moving_avg)) heq
  rw [e1, e2] at hmap
  have : (20 : ℚ) = 12 := by
    injection hmap with h1 _
    injection h1
  norm_num at this

end Machine
